import Mathlib

/-
  Verification of the override-proxy rule engine.

  Shallow embedding of:
  - the rule builder (src/unnamed/part_002, the overloaded `rule` function with
    its config-record form and its positional form),
  - the loader's export-name finalization (src/unnamed/part_001, lines 75-84),
  - the override dispatch middleware (src/unnamed/part_001, lines 190-211) and
    the surrounding express pipeline (dispatch stage followed by the proxy
    fallback stage).

  Thrown JavaScript errors are modelled by `Except String`, the thrown value
  already in its `String(err)` form.  Regular expressions are modelled as an
  abstract test function on strings together with their `toString()` form.
-/

/-- An HTTP request as seen by rule predicates: method and path
(query string excluded), mirroring express `req.method` / `req.path`. -/
structure Request where
  method : String
  path : String
deriving Repr, DecidableEq

/-- What a rule handler does when it terminates normally: either it writes a
response (status plus body), or it invokes the `next` continuation. -/
inductive HandlerOutcome where
  | respond (status : Nat) (body : String)
  | callNext
deriving Repr, DecidableEq

/-- A rule predicate (`RuleTest` in types.ts); it may throw, modelled by
`Except.error`. -/
abbrev RuleTest := Request → Except String Bool

/-- A rule handler (`RuleHandler` in types.ts); it may throw or reject,
modelled by `Except.error`. -/
abbrev RuleHandler := Request → Except String HandlerOutcome

/-- A path specifier: a literal string, or a regular expression modelled by
its test function on paths together with its `toString()` source form. -/
inductive PathSpec where
  | str (s : String)
  | regex (rtest : String → Bool) (src : String)

/-- The `String(path)` display form of a path specifier: the string itself,
or the regex's `toString()` form. -/
def PathSpec.display : PathSpec → String
  | .str s => s
  | .regex _ src => src

/-- The `OverrideRule` record of src/unnamed/part_002: optional display name,
enabled flag, method list, predicate and handler. -/
structure OverrideRule where
  name : Option String
  enabled : Bool
  methods : List String
  test : RuleTest
  handler : RuleHandler

/-- The `RuleConfig` record accepted by the config form of `rule()`. -/
structure RuleConfig where
  name : Option String := none
  enabled : Option Bool := none
  methods : Option (List String) := none
  path : Option PathSpec := none
  test : Option RuleTest := none
  handler : RuleHandler

/-- JavaScript truthiness of an optional string: `undefined` and the empty
string are falsy. -/
def jsTruthyStr : Option String → Bool
  | some s => !s.isEmpty
  | none => false

/-- The display-name computation of the config form:
`cfg.name || (hasPath ? (isString ? cfg.path : String(cfg.path)) : undefined)`
followed by the truthiness filter of `...(name ? \x7b name \x7d : \x7b\x7d)`. -/
def ruleNameOf (cfgName : Option String) (path : Option PathSpec) : Option String :=
  let n := if jsTruthyStr cfgName then cfgName else path.map PathSpec.display
  if jsTruthyStr n then n else none

/-- The methods computation of the config form:
`((cfg.methods && cfg.methods.length ? cfg.methods : ["GET"]).map(m => m.toUpperCase())`. -/
def defaultMethods (ms : Option (List String)) : List String :=
  (match ms with
   | some l => if l.isEmpty then ["GET"] else l
   | none => ["GET"]).map String.toUpper

/-- The config-record form of `rule()` (src/unnamed/part_002, lines 50-90):
derives `enabled` from `cfg.enabled !== false`, defaults and upper-cases the
methods, requires a path or a custom test (else throws
"rule(config) requires either path or test"), and synthesizes the predicate:
with a custom test, `enabled && methods.includes(req.method.toUpperCase()) && cfg.test(req)`;
with only a path, the enabled / method / path-match cascade. -/
def ruleConfig (cfg : RuleConfig) : Except String OverrideRule :=
  let enabled : Bool := cfg.enabled != some false
  let methods := defaultMethods cfg.methods
  match cfg.test, cfg.path with
  | none, none => Except.error "rule(config) requires either path or test"
  | some t, _ =>
      Except.ok {
        name := ruleNameOf cfg.name cfg.path
        enabled := enabled
        methods := methods
        test := fun req =>
          if enabled && methods.contains req.method.toUpper then t req
          else Except.ok false
        handler := cfg.handler }
  | none, some p =>
      Except.ok {
        name := ruleNameOf cfg.name cfg.path
        enabled := enabled
        methods := methods
        test := fun req => Except.ok (
          if !enabled then false
          else if !(methods.contains req.method.toUpper) then false
          else match p with
            | .str s => req.path == s
            | .regex rt _ => rt req.path)
        handler := cfg.handler }

/-- The optional settings record of the positional form of `rule()`. -/
structure RuleOptions where
  enabled : Option Bool := none

/-- The positional form `rule(method, path, handler, options?)`
(src/unnamed/part_002, lines 92-116): wraps a single method into a list,
upper-cases the methods, derives `enabled` from `options?.enabled !== false`,
always sets `name` to the path specifier's string form, and synthesizes the
enabled / method / path-match predicate. -/
def rulePositional (method : Sum String (List String)) (path : PathSpec)
    (handler : RuleHandler) (options : Option RuleOptions) : OverrideRule :=
  let methods := (match method with
    | Sum.inl m => [m]
    | Sum.inr ms => ms).map String.toUpper
  let enabled : Bool := (options.bind fun o => o.enabled) != some false
  { name := some path.display
    enabled := enabled
    methods := methods
    test := fun req => Except.ok (
      let m := req.method.toUpper
      if !enabled then false
      else if !(methods.contains m) then false
      else match path with
        | .str s => req.path == s
        | .regex rt _ => rt req.path)
    handler := handler }

/-- The loader's name finalization (src/unnamed/part_001, lines 75-84):
`if (exportName && !r.name) r.name = exportName` — the export name is
assigned only when it is truthy and the rule's own name is falsy. -/
def attachExportName (r : OverrideRule) (exportName : Option String) : OverrideRule :=
  match exportName with
  | some e => if !e.isEmpty && !(jsTruthyStr r.name) then { r with name := some e } else r
  | none => r

/-- The uppercase HTTP verb tokens of the `Method` type in types.ts. -/
def httpVerbs : List String :=
  ["GET", "POST", "PUT", "PATCH", "DELETE", "HEAD", "OPTIONS"]

/-- Observable events of one dispatch: a rule's predicate was evaluated, or a
rule's handler was invoked (rules identified by registry index). -/
inductive Event where
  | tested (i : Nat)
  | handlerInvoked (i : Nat)
deriving Repr, DecidableEq

/-- Outcome of the override dispatch middleware for one request. -/
inductive DispatchOutcome where
  | overridden (i : Nat) (out : HandlerOutcome)
  | failed (status : Nat) (error : String) (detail : String)
  | passthrough
deriving Repr, DecidableEq

/-- The dispatch loop of src/unnamed/part_001 (lines 190-211), instrumented
with the list of observable events.  For each rule in order: evaluate
`rule.test(req)` inside the try block; a throw is caught and answered with
status 500 and body with error "override_failed" and detail `String(err)`;
on `true` the handler is invoked (a handler throw is caught the same way) and
the loop returns; on `false` the loop continues; after the loop, `next()`. -/
def dispatchGo (req : Request) : List OverrideRule → Nat → DispatchOutcome × List Event
  | [], _ => (DispatchOutcome.passthrough, [])
  | r :: rest, i =>
    match r.test req with
    | Except.error e =>
        (DispatchOutcome.failed 500 "override_failed" e, [Event.tested i])
    | Except.ok true =>
        match r.handler req with
        | Except.error e =>
            (DispatchOutcome.failed 500 "override_failed" e,
             [Event.tested i, Event.handlerInvoked i])
        | Except.ok out =>
            (DispatchOutcome.overridden i out,
             [Event.tested i, Event.handlerInvoked i])
    | Except.ok false =>
        let p := dispatchGo req rest (i + 1)
        (p.1, Event.tested i :: p.2)

/-- Dispatch over a registry, indices starting at 0. -/
def dispatch (rules : List OverrideRule) (req : Request) : DispatchOutcome × List Event :=
  dispatchGo req rules 0

/-- How a request is ultimately served by the express pipeline. -/
inductive Served where
  | byOverride (i : Nat) (status : Nat) (body : String)
  | errorResponse (status : Nat) (error : String) (detail : String)
  | byProxy
deriving Repr, DecidableEq

/-- The express pipeline around the dispatch middleware: an override response
is served directly; when the dispatch middleware calls `next()` — at loop end,
or because the matched handler itself invoked the continuation — the request
reaches the proxy fallback stage; a caught error is served as the uniform 500
response. -/
def pipeline (rules : List OverrideRule) (req : Request) : Served :=
  match (dispatch rules req).1 with
  | DispatchOutcome.overridden i (HandlerOutcome.respond st b) => Served.byOverride i st b
  | DispatchOutcome.overridden _ HandlerOutcome.callNext => Served.byProxy
  | DispatchOutcome.failed st er d => Served.errorResponse st er d
  | DispatchOutcome.passthrough => Served.byProxy

/-- The tested-events for registry indices b, b+1, ..., b+n-1. -/
def testedRange : Nat → Nat → List Event
  | _, 0 => []
  | b, n + 1 => Event.tested b :: testedRange (b + 1) n

/-- A handler that writes a 200 response with the given body. -/
def hRespond (body : String) : RuleHandler :=
  fun _ => Except.ok (HandlerOutcome.respond 200 body)

/-- A handler that invokes the `next` continuation instead of responding. -/
def hNext : RuleHandler := fun _ => Except.ok HandlerOutcome.callNext

/-- A sample request: GET /x. -/
def reqGX : Request := { method := "GET", path := "/x" }

/-- A sample request: GET /anything. -/
def reqAnything : Request := { method := "GET", path := "/anything" }

/-- A sample rule matching path /x, responding with body "a". -/
def ruleMatchA : OverrideRule :=
  { name := some "A", enabled := true, methods := ["GET"]
    test := fun r => Except.ok (r.path == "/x"), handler := hRespond "a" }

/-- A sample rule also matching path /x, responding with body "b". -/
def ruleMatchB : OverrideRule :=
  { name := some "B", enabled := true, methods := ["GET"]
    test := fun r => Except.ok (r.path == "/x"), handler := hRespond "b" }

/-- A sample rule whose predicate throws. -/
def ruleThrowTest : OverrideRule :=
  { name := some "T", enabled := true, methods := ["GET"]
    test := fun _ => Except.error "boom", handler := hRespond "t" }

/-- A sample rule that matches /x but whose handler defers via `next`. -/
def ruleDeferNext : OverrideRule :=
  { name := some "N", enabled := true, methods := ["GET"]
    test := fun r => Except.ok (r.path == "/x"), handler := hNext }

/-- A config for a disabled rule on path /x. -/
def cfgDisabled : RuleConfig :=
  { enabled := some false, path := some (PathSpec.str "/x"), handler := hRespond "off" }

/-- The rule built from `cfgDisabled`. -/
def ruleDisabled : OverrideRule :=
  match ruleConfig cfgDisabled with
  | Except.ok r => r
  | Except.error _ => ruleMatchA

/-- A sample custom test: matches path /x. -/
def tCustom : RuleTest := fun r => Except.ok (r.path == "/x")

/-- A config supplying the custom test `tCustom`. -/
def cfgCustom : RuleConfig := { test := some tCustom, handler := hRespond "c" }

/-- The rule built from `cfgCustom`. -/
def ruleCustom : OverrideRule :=
  match ruleConfig cfgCustom with
  | Except.ok r => r
  | Except.error _ => ruleMatchA

/-- A config with only a path /x. -/
def cfgPathX : RuleConfig := { path := some (PathSpec.str "/x"), handler := hRespond "x" }

/-- The rule built from `cfgPathX`. -/
def rulePathX : OverrideRule :=
  match ruleConfig cfgPathX with
  | Except.ok r => r
  | Except.error _ => ruleMatchA

/-- A config with neither path nor test. -/
def cfgEmpty : RuleConfig := { handler := hRespond "e" }

theorem testedRange_mem {e : Event} :
    ∀ {n b : Nat}, e ∈ testedRange b n → ∃ k, k < n ∧ e = Event.tested (b + k) := by
  intro n
  induction n with
  | zero => intro b h; simp [testedRange] at h
  | succ m ih =>
    intro b h
    simp only [testedRange, List.mem_cons] at h
    rcases h with h | h
    · exact ⟨0, Nat.succ_pos m, by simp [h]⟩
    · rcases ih h with ⟨k, hk, he⟩
      refine ⟨k + 1, Nat.succ_lt_succ hk, ?_⟩
      rw [he]
      congr 1
      omega

theorem dispatchGo_cons_false (req : Request) (r : OverrideRule)
    (rest : List OverrideRule) (b : Nat) (h : r.test req = Except.ok false) :
    dispatchGo req (r :: rest) b =
      ((dispatchGo req rest (b + 1)).1,
       Event.tested b :: (dispatchGo req rest (b + 1)).2) := by
  simp [dispatchGo, h]

theorem dispatchGo_first_true (req : Request) (rs : List OverrideRule) :
    ∀ (b i : Nat) (hi : i < rs.length),
      (∀ k (hk : k < i), (rs.get ⟨k, lt_trans hk hi⟩).test req = Except.ok false) →
      (rs.get ⟨i, hi⟩).test req = Except.ok true →
      dispatchGo req rs b =
        ((match (rs.get ⟨i, hi⟩).handler req with
          | Except.ok out => DispatchOutcome.overridden (b + i) out
          | Except.error e => DispatchOutcome.failed 500 "override_failed" e),
         testedRange b i ++ [Event.tested (b + i), Event.handlerInvoked (b + i)]) := by
  induction rs with
  | nil => intro b i hi; exact absurd hi (by simp)
  | cons r rest ih =>
    intro b i hi hfirst ht
    cases i with
    | zero =>
      have ht0 : r.test req = Except.ok true := ht
      cases hh : r.handler req with
      | ok out => simp [dispatchGo, ht0, hh, testedRange]
      | error e => simp [dispatchGo, ht0, hh, testedRange]
    | succ k =>
      have h0 : r.test req = Except.ok false := hfirst 0 (Nat.succ_pos k)
      have hk : k < rest.length := Nat.lt_of_succ_lt_succ hi
      have hrec := ih (b + 1) k hk (fun m hm => hfirst (m + 1) (Nat.succ_lt_succ hm)) ht
      rw [dispatchGo_cons_false req r rest b h0, hrec]
      have hbk : b + 1 + k = b + (k + 1) := by omega
      simp [testedRange, hbk, List.get_cons_succ]

theorem dispatchGo_first_throw (req : Request) (rs : List OverrideRule) :
    ∀ (b i : Nat) (hi : i < rs.length) (e : String),
      (∀ k (hk : k < i), (rs.get ⟨k, lt_trans hk hi⟩).test req = Except.ok false) →
      (rs.get ⟨i, hi⟩).test req = Except.error e →
      dispatchGo req rs b =
        (DispatchOutcome.failed 500 "override_failed" e,
         testedRange b i ++ [Event.tested (b + i)]) := by
  induction rs with
  | nil => intro b i hi; exact absurd hi (by simp)
  | cons r rest ih =>
    intro b i hi e hfirst ht
    cases i with
    | zero =>
      have ht0 : r.test req = Except.error e := ht
      simp [dispatchGo, ht0, testedRange]
    | succ k =>
      have h0 : r.test req = Except.ok false := hfirst 0 (Nat.succ_pos k)
      have hk : k < rest.length := Nat.lt_of_succ_lt_succ hi
      have hrec := ih (b + 1) k hk e (fun m hm => hfirst (m + 1) (Nat.succ_lt_succ hm)) ht
      rw [dispatchGo_cons_false req r rest b h0, hrec]
      have hbk : b + 1 + k = b + (k + 1) := by omega
      simp [testedRange, hbk]

theorem dispatchGo_all_false (req : Request) (rs : List OverrideRule) :
    ∀ b : Nat, (∀ r ∈ rs, r.test req = Except.ok false) →
      dispatchGo req rs b = (DispatchOutcome.passthrough, testedRange b rs.length) := by
  induction rs with
  | nil => intro b _; simp [dispatchGo, testedRange]
  | cons r rest ih =>
    intro b h
    have h0 : r.test req = Except.ok false := h r (by simp)
    rw [dispatchGo_cons_false req r rest b h0, ih (b + 1) (fun x hx => h x (by simp [hx]))]
    simp [testedRange]

theorem tested_index_le {k b i : Nat}
    (h : Event.tested k ∈
      testedRange b i ++ [Event.tested (b + i), Event.handlerInvoked (b + i)]) :
    k ≤ b + i := by
  rcases List.mem_append.mp h with h | h
  · rcases testedRange_mem h with ⟨m, hm, he⟩
    simp only [Event.tested.injEq] at he
    omega
  · simp at h
    omega

theorem handlerInvoked_index_eq {k b i : Nat}
    (h : Event.handlerInvoked k ∈
      testedRange b i ++ [Event.tested (b + i), Event.handlerInvoked (b + i)]) :
    k = b + i := by
  rcases List.mem_append.mp h with h | h
  · rcases testedRange_mem h with ⟨m, hm, he⟩
    exact absurd he (by simp)
  · simpa using h

theorem tested_index_le_of_throw {k b i : Nat}
    (h : Event.tested k ∈ testedRange b i ++ [Event.tested (b + i)]) :
    k ≤ b + i := by
  rcases List.mem_append.mp h with h | h
  · rcases testedRange_mem h with ⟨m, hm, he⟩
    simp only [Event.tested.injEq] at he
    omega
  · simp at h
    omega

theorem handlerInvoked_not_mem_of_throw {k b i : Nat}
    (h : Event.handlerInvoked k ∈ testedRange b i ++ [Event.tested (b + i)]) :
    False := by
  rcases List.mem_append.mp h with h | h
  · rcases testedRange_mem h with ⟨m, hm, he⟩
    exact absurd he (by simp)
  · simp at h

/-- Claim C1: for every registry and request, if rule i and rule j (i < j)
both have predicates returning true for the request (i being the first match),
the dispatcher invokes only rule i's handler; rule j's handler is never
invoked and rule j's predicate is never evaluated once rule i has matched. -/
theorem dispatch_first_match_only (rules : List OverrideRule) (req : Request)
    (i j : Nat) (hij : i < j) (hj : j < rules.length)
    (hfirst : ∀ k (hk : k < i),
      (rules.get ⟨k, lt_trans (lt_trans hk hij) hj⟩).test req = Except.ok false)
    (hti : (rules.get ⟨i, lt_trans hij hj⟩).test req = Except.ok true)
    (htj : (rules.get ⟨j, hj⟩).test req = Except.ok true) :
    Event.handlerInvoked i ∈ (dispatch rules req).2 ∧
    (∀ k, Event.handlerInvoked k ∈ (dispatch rules req).2 → k = i) ∧
    Event.tested j ∉ (dispatch rules req).2 ∧
    Event.handlerInvoked j ∉ (dispatch rules req).2 := by
  have hi : i < rules.length := lt_trans hij hj
  have H : (dispatch rules req).2 =
      testedRange 0 i ++ [Event.tested (0 + i), Event.handlerInvoked (0 + i)] := by
    unfold dispatch
    rw [dispatchGo_first_true req rules 0 i hi hfirst hti]
  refine ⟨?_, ?_, ?_, ?_⟩
  · rw [H]
    simp
  · intro k hk
    rw [H] at hk
    have := handlerInvoked_index_eq hk
    omega
  · intro hmem
    rw [H] at hmem
    have := tested_index_le hmem
    omega
  · intro hmem
    rw [H] at hmem
    have := handlerInvoked_index_eq hmem
    omega

theorem dispatch_first_match_only_witness :
    Event.handlerInvoked 0 ∈ (dispatch [ruleMatchA, ruleMatchB] reqGX).2 ∧
    Event.tested 1 ∉ (dispatch [ruleMatchA, ruleMatchB] reqGX).2 ∧
    Event.handlerInvoked 1 ∉ (dispatch [ruleMatchA, ruleMatchB] reqGX).2 :=
  ⟨(dispatch_first_match_only [ruleMatchA, ruleMatchB] reqGX 0 1 (by omega) (by simp)
      (fun k hk => absurd hk (Nat.not_lt_zero k)) rfl rfl).1,
   (dispatch_first_match_only [ruleMatchA, ruleMatchB] reqGX 0 1 (by omega) (by simp)
      (fun k hk => absurd hk (Nat.not_lt_zero k)) rfl rfl).2.2.1,
   (dispatch_first_match_only [ruleMatchA, ruleMatchB] reqGX 0 1 (by omega) (by simp)
      (fun k hk => absurd hk (Nat.not_lt_zero k)) rfl rfl).2.2.2⟩

/-- Claim C2: for every registry (including the empty one) and request, if no
rule's predicate returns true, the dispatcher invokes no handler and yields
to the passthrough stage (it calls the pipeline continuation, so the proxy
fallback serves the request). -/
theorem no_match_yields_passthrough (rules : List OverrideRule) (req : Request)
    (h : ∀ r ∈ rules, r.test req = Except.ok false) :
    (dispatch rules req).1 = DispatchOutcome.passthrough ∧
    (∀ k, Event.handlerInvoked k ∉ (dispatch rules req).2) ∧
    pipeline rules req = Served.byProxy := by
  have H : dispatch rules req = (DispatchOutcome.passthrough, testedRange 0 rules.length) :=
    dispatchGo_all_false req rules 0 h
  refine ⟨by rw [H], ?_, ?_⟩
  · intro k hk
    rw [H] at hk
    rcases testedRange_mem hk with ⟨m, _, he⟩
    exact Event.noConfusion he
  · unfold pipeline
    rw [H]

theorem no_match_yields_passthrough_witness :
    (dispatch [] reqAnything).1 = DispatchOutcome.passthrough ∧
    pipeline [] reqAnything = Served.byProxy :=
  ⟨(no_match_yields_passthrough [] reqAnything (by simp)).1,
   (no_match_yields_passthrough [] reqAnything (by simp)).2.2⟩

/-- Claim C3: if the scan reaches rule i (all earlier predicates false) and
rule i's predicate throws, or its matched handler throws or rejects, the
dispatcher catches the error and produces exactly one response — HTTP 500
with body error "override_failed" and detail the string form of the error;
no further rule is tested, no other handler is invoked, and the passthrough
stage is not attempted. -/
theorem dispatch_error_uniform_response (rules : List OverrideRule) (req : Request)
    (i : Nat) (hi : i < rules.length) (e : String)
    (hfirst : ∀ k (hk : k < i),
      (rules.get ⟨k, lt_trans hk hi⟩).test req = Except.ok false)
    (herr : (rules.get ⟨i, hi⟩).test req = Except.error e ∨
            ((rules.get ⟨i, hi⟩).test req = Except.ok true ∧
             (rules.get ⟨i, hi⟩).handler req = Except.error e)) :
    (dispatch rules req).1 = DispatchOutcome.failed 500 "override_failed" e ∧
    (∀ k, Event.tested k ∈ (dispatch rules req).2 → k ≤ i) ∧
    (∀ k, Event.handlerInvoked k ∈ (dispatch rules req).2 → k = i) ∧
    pipeline rules req = Served.errorResponse 500 "override_failed" e := by
  rcases herr with ht | ⟨ht, hh⟩
  · have H : dispatch rules req =
        (DispatchOutcome.failed 500 "override_failed" e,
         testedRange 0 i ++ [Event.tested (0 + i)]) := by
      unfold dispatch
      rw [dispatchGo_first_throw req rules 0 i hi e hfirst ht]
    refine ⟨by rw [H], ?_, ?_, ?_⟩
    · intro k hk
      rw [H] at hk
      have := tested_index_le_of_throw hk
      omega
    · intro k hk
      rw [H] at hk
      exact absurd (handlerInvoked_not_mem_of_throw hk) not_false
    · unfold pipeline
      rw [H]
  · have H : dispatch rules req =
        (DispatchOutcome.failed 500 "override_failed" e,
         testedRange 0 i ++ [Event.tested (0 + i), Event.handlerInvoked (0 + i)]) := by
      unfold dispatch
      rw [dispatchGo_first_true req rules 0 i hi hfirst ht, hh]
    refine ⟨by rw [H], ?_, ?_, ?_⟩
    · intro k hk
      rw [H] at hk
      have := tested_index_le hk
      omega
    · intro k hk
      rw [H] at hk
      have := handlerInvoked_index_eq hk
      omega
    · unfold pipeline
      rw [H]

theorem dispatch_error_uniform_response_witness :
    (dispatch [ruleThrowTest] reqGX).1 =
      DispatchOutcome.failed 500 "override_failed" "boom" ∧
    pipeline [ruleThrowTest] reqGX =
      Served.errorResponse 500 "override_failed" "boom" :=
  ⟨(dispatch_error_uniform_response [ruleThrowTest] reqGX 0 (by simp) "boom"
      (fun k hk => absurd hk (Nat.not_lt_zero k)) (Or.inl rfl)).1,
   (dispatch_error_uniform_response [ruleThrowTest] reqGX 0 (by simp) "boom"
      (fun k hk => absurd hk (Nat.not_lt_zero k)) (Or.inl rfl)).2.2.2⟩

/-- Claim C9: if the first matching rule's handler invokes the continuation
(`next`) instead of responding, the dispatcher still stops scanning — no
later rule's predicate is evaluated, no other handler is invoked — and
control passes directly to the passthrough stage rather than re-entering the
registry scan. -/
theorem handler_next_stops_scan (rules : List OverrideRule) (req : Request)
    (i : Nat) (hi : i < rules.length)
    (hfirst : ∀ k (hk : k < i),
      (rules.get ⟨k, lt_trans hk hi⟩).test req = Except.ok false)
    (hti : (rules.get ⟨i, hi⟩).test req = Except.ok true)
    (hh : (rules.get ⟨i, hi⟩).handler req = Except.ok HandlerOutcome.callNext) :
    (dispatch rules req).1 = DispatchOutcome.overridden i HandlerOutcome.callNext ∧
    (∀ k, Event.tested k ∈ (dispatch rules req).2 → k ≤ i) ∧
    (∀ k, Event.handlerInvoked k ∈ (dispatch rules req).2 → k = i) ∧
    pipeline rules req = Served.byProxy := by
  have H : dispatch rules req =
      (DispatchOutcome.overridden (0 + i) HandlerOutcome.callNext,
       testedRange 0 i ++ [Event.tested (0 + i), Event.handlerInvoked (0 + i)]) := by
    unfold dispatch
    rw [dispatchGo_first_true req rules 0 i hi hfirst hti, hh]
  refine ⟨by rw [H]; simp, ?_, ?_, ?_⟩
  · intro k hk
    rw [H] at hk
    have := tested_index_le hk
    omega
  · intro k hk
    rw [H] at hk
    have := handlerInvoked_index_eq hk
    omega
  · unfold pipeline
    rw [H]

theorem handler_next_stops_scan_witness :
    (dispatch [ruleDeferNext, ruleMatchB] reqGX).1 =
      DispatchOutcome.overridden 0 HandlerOutcome.callNext ∧
    pipeline [ruleDeferNext, ruleMatchB] reqGX = Served.byProxy :=
  ⟨(handler_next_stops_scan [ruleDeferNext, ruleMatchB] reqGX 0 (by simp)
      (fun k hk => absurd hk (Nat.not_lt_zero k)) rfl rfl).1,
   (handler_next_stops_scan [ruleDeferNext, ruleMatchB] reqGX 0 (by simp)
      (fun k hk => absurd hk (Nat.not_lt_zero k)) rfl rfl).2.2.2⟩

/-- Claim C4: a rule constructed by either builder form with enabled set to
false has a predicate that returns false for every request, regardless of
method and path and regardless of whether the underlying path specifier or
custom test would otherwise match. -/
theorem disabled_rule_never_matches :
    (∀ (cfg : RuleConfig) (r : OverrideRule) (req : Request),
        cfg.enabled = some false → ruleConfig cfg = Except.ok r →
        r.test req = Except.ok false) ∧
    (∀ (method : Sum String (List String)) (path : PathSpec) (handler : RuleHandler)
        (o : RuleOptions) (req : Request), o.enabled = some false →
        (rulePositional method path handler (some o)).test req = Except.ok false) := by
  constructor
  · intro cfg r req hE hC
    rcases hT : cfg.test with _ | t <;> rcases hP : cfg.path with _ | p <;>
      simp [ruleConfig, hT, hP] at hC
    · subst hC
      simp [hE]
    · subst hC
      simp [hE]
    · subst hC
      simp [hE]
  · intro method path handler o req hE
    simp [rulePositional, hE]

theorem disabled_rule_never_matches_witness :
    ruleDisabled.test reqGX = Except.ok false ∧
    (rulePositional (Sum.inl "GET") (PathSpec.str "/x") (hRespond "x")
        (some { enabled := some false })).test reqGX = Except.ok false :=
  ⟨(disabled_rule_never_matches).1 cfgDisabled ruleDisabled reqGX rfl rfl,
   (disabled_rule_never_matches).2 (Sum.inl "GET") (PathSpec.str "/x") (hRespond "x")
      { enabled := some false } reqGX rfl⟩

/-- Claim C5: for a rule built via the record form with a custom test, the
synthesized predicate returns true exactly when the rule is enabled, the
request's upper-cased method is in the rule's method list, and the custom
test returns true — the custom test augments the method/enabled guard. -/
theorem custom_test_augments_guard (cfg : RuleConfig) (t : RuleTest)
    (r : OverrideRule) (req : Request)
    (hT : cfg.test = some t) (hC : ruleConfig cfg = Except.ok r) :
    (r.test req = Except.ok true ↔
      (r.enabled = true ∧ r.methods.contains req.method.toUpper = true ∧
       t req = Except.ok true)) := by
  simp [ruleConfig, hT] at hC
  subst hC
  by_cases hE : cfg.enabled = some false <;>
    by_cases hM : req.method.toUpper ∈ defaultMethods cfg.methods <;>
      simp [hE, hM]

theorem custom_test_augments_guard_witness :
    ruleCustom.test reqGX = Except.ok true ↔
      (ruleCustom.enabled = true ∧
       ruleCustom.methods.contains reqGX.method.toUpper = true ∧
       tCustom reqGX = Except.ok true) :=
  custom_test_augments_guard cfgCustom tCustom ruleCustom reqGX rfl rfl

/-- Claim C6 (counterexample): building a rule via the record form with
neither path nor test does fail, but the configuration error's message is
"rule(config) requires either path or test", not the claimed
"rule requires either path or test". -/
theorem ruleConfig_missing_message_counterexample :
    ruleConfig cfgEmpty = Except.error "rule(config) requires either path or test" ∧
    ruleConfig cfgEmpty ≠ Except.error "rule requires either path or test" := by
  constructor
  · rfl
  · intro h
    have h0 : ruleConfig cfgEmpty =
        Except.error "rule(config) requires either path or test" := rfl
    rw [h0] at h
    injection h with h2
    exact (by decide :
      ¬("rule(config) requires either path or test" =
        "rule requires either path or test")) h2

/-- Claim C6 (amended): calling the record-form builder with a record
containing neither a path nor a test fails at construction time with the
configuration error "rule(config) requires either path or test", and
produces no rule. -/
theorem ruleConfig_requires_path_or_test (cfg : RuleConfig)
    (hP : cfg.path = none) (hT : cfg.test = none) :
    ruleConfig cfg = Except.error "rule(config) requires either path or test" := by
  simp [ruleConfig, hP, hT]

theorem ruleConfig_requires_path_or_test_witness :
    ruleConfig cfgEmpty = Except.error "rule(config) requires either path or test" :=
  ruleConfig_requires_path_or_test cfgEmpty rfl rfl

/-- Claim C7 (code evaluated at the failing input): a config-form rule with
path "/x" and no explicit name, loaded under export name "DemoHello", keeps
display name "/x" — the builder pre-fills the name from the path string, so
the loader's export-name assignment (guarded by `!r.name`) never fires, and
the export-derived identifier does not take precedence over the path string
as the claim (and the code's own comments) state. -/
theorem exportName_shadowed_by_pathName :
    (ruleConfig cfgPathX).map
        (fun r => (attachExportName r (some "DemoHello")).name) =
      Except.ok (some "/x") ∧
    (some "/x" : Option String) ≠ some "DemoHello" := by
  exact ⟨rfl, by decide⟩

/-- Claim C8 (code evaluated at the failing input): the positional builder
form accepts an empty method array and produces a rule whose methods list is
empty, violating the declared non-empty MethodList invariant. -/
theorem positional_empty_methods :
    (rulePositional (Sum.inr []) (PathSpec.str "/x") (hRespond "x") none).methods = [] :=
  rfl

/-- Claim C10: the enabled flag is captured into the predicate's closure at
construction time; for a rule produced by either builder form, rebinding the
returned record's enabled field afterwards does not change the result of its
test predicate on any request. -/
theorem enabled_captured_in_closure :
    (∀ (cfg : RuleConfig) (r : OverrideRule) (b : Bool) (req : Request),
        ruleConfig cfg = Except.ok r →
        ({ r with enabled := b } : OverrideRule).test req = r.test req) ∧
    (∀ (method : Sum String (List String)) (path : PathSpec) (handler : RuleHandler)
        (options : Option RuleOptions) (b : Bool) (req : Request),
        ({ rulePositional method path handler options with
            enabled := b } : OverrideRule).test req =
          (rulePositional method path handler options).test req) :=
  ⟨fun _ _ _ _ _ => rfl, fun _ _ _ _ _ _ => rfl⟩

theorem enabled_captured_in_closure_witness :
    ({ rulePathX with enabled := false } : OverrideRule).test reqGX =
      rulePathX.test reqGX :=
  (enabled_captured_in_closure).1 cfgPathX rulePathX false reqGX rfl
